import Mathlib

/-
Formal model of the Jadlo route planner core:
  app/routing.py          (edge cost model, graph simplification, search)
  scripts/run_poc_segmented.py  (corridor stitching)

Modelling conventions:
  * Python floats are modelled exactly: attribute values and preference
    parameters are rationals; edge weights are reals, because the surface
    factor `base_sp ** surface_weight_factor` is a real power.
  * Python dicts of optional attributes become records of `Option` fields;
    a raised exception becomes `Except.error` carrying the exception text.
  * An OSM tag value can be absent, a string, or a list of strings
    (`TagValue`).  Python truthiness of such a value is `TagValue.truthy`.
  * Coordinates are pairs of rationals, `Coord`, compared for equality
    exactly as Python compares coordinate tuples.
-/

namespace Jadlo

/-- User preference parameters: the `params` dict of `routing.py`.
A field is `none` when the key is missing from the dict; `dict.get`
with a default is `Option.getD`. -/
structure Params where
  surface_weight_factor : Option ℚ := none
  prefer_main_roads : Option ℚ := none
  prefer_unpaved : Option ℚ := none
  heatmap_influence : Option ℚ := none
  prefer_streetview : Option ℚ := none

/-- The documented ranges of `RoutePreferences`: scalar fields in [0,1],
surface-weight exponent in [0.1, 3.0] (spec, section 3).  Stated on the
effective values, i.e. after the defaults of `_edge_penalty` are applied. -/
def Params.valid (p : Params) : Prop :=
  0 ≤ p.prefer_main_roads.getD 0.5 ∧ p.prefer_main_roads.getD 0.5 ≤ 1 ∧
  0 ≤ p.prefer_unpaved.getD 0.5 ∧ p.prefer_unpaved.getD 0.5 ≤ 1 ∧
  0 ≤ p.heatmap_influence.getD 0.0 ∧ p.heatmap_influence.getD 0.0 ≤ 1 ∧
  0 ≤ p.prefer_streetview.getD 0.0 ∧ p.prefer_streetview.getD 0.0 ≤ 1 ∧
  0.1 ≤ p.surface_weight_factor.getD 1.0 ∧ p.surface_weight_factor.getD 1.0 ≤ 3

/-- An OSM tag value as it appears in an edge-attribute dict:
absent (`None`), a string, or a list of strings. -/
inductive TagValue where
  | none
  | str (s : String)
  | list (l : List String)
deriving DecidableEq

/-- Python truthiness of a tag value: `None`, `""` and `[]` are falsy. -/
def TagValue.truthy : TagValue → Bool
  | .none => false
  | .str s => decide (s ≠ "")
  | .list l => decide (l ≠ [])

/-- The edge-attribute dict `data` as consumed by `_edge_penalty`:
`length`, `highway`, `surface` (each possibly missing). -/
structure EdgeData where
  length : Option ℚ := none
  highway : TagValue := .none
  surface : TagValue := .none

/-- HIGHWAY_PENALTIES dict (routing.py lines 47-57); `dict.get` on a
string key, as an if-chain of exact key comparisons. -/
def HIGHWAY_PENALTIES (h : String) : Option ℚ :=
  if h = "motorway" then some 5.0
  else if h = "trunk" then some 3.0
  else if h = "primary" then some 2.0
  else if h = "secondary" then some 1.5
  else if h = "tertiary" then some 1.2
  else if h = "residential" then some 1.0
  else if h = "service" then some 1.0
  else if h = "cycleway" then some 0.7
  else if h = "path" then some 0.9
  else none

/-- SURFACE_PENALTIES dict (routing.py lines 61-68). -/
def SURFACE_PENALTIES (s : String) : Option ℚ :=
  if s = "paved" then some 1.0
  else if s = "asphalt" then some 1.0
  else if s = "concrete" then some 1.0
  else if s = "gravel" then some 1.6
  else if s = "unpaved" then some 2.0
  else if s = "dirt" then some 2.0
  else none

/-- The prefix of `s` before the first ':', i.e. Python
`surface.split(':')[0]`, modelled on the character list. -/
def beforeColon (s : String) : String :=
  String.mk (s.data.takeWhile (fun c => c ≠ ':'))

/-- `_get_surface_penalty` (routing.py lines 71-96): exact match in
SURFACE_PENALTIES, then — when the label contains ':' — match on the
prefix before the colon, else the neutral default 1.0.
`':' in surface` is modelled as membership of ':' in the character list. -/
def _get_surface_penalty (surface : String) : ℚ :=
  match SURFACE_PENALTIES surface with
  | some penalty => penalty
  | Option.none =>
    if surface.data.contains ':' then
      match SURFACE_PENALTIES (beforeColon surface) with
      | some penalty => penalty
      | Option.none => 1.0
    else 1.0

/-- Lines 123-125: `highway = data.get('highway')`, and when the value is
a list, `highway = highway[0]` — which raises IndexError on an empty
list. -/
def normalize_highway : TagValue → Except String TagValue
  | .list [] => .error "IndexError: list index out of range"
  | .list (h :: _) => .ok (.str h)
  | v => .ok v

/-- Line 126: `hp = HIGHWAY_PENALTIES.get(highway, 1.0)`.  A `None` key is
hashable, so a missing highway degrades to the default 1.0. -/
def highway_penalty_base : TagValue → ℚ
  | .str s => (HIGHWAY_PENALTIES s).getD 1.0
  | _ => 1.0

/-- Line 144: `highway in ('primary', 'secondary', 'trunk', 'motorway')`. -/
def is_main_highway : TagValue → Bool
  | .str s => decide (s = "primary" ∨ s = "secondary" ∨ s = "trunk" ∨ s = "motorway")
  | _ => false

/-- Line 149: `surface in ('gravel', 'unpaved', 'dirt')` — an exact-label
membership test on the raw tag value. -/
def is_rough_surface : TagValue → Bool
  | .str s => decide (s = "gravel" ∨ s = "unpaved" ∨ s = "dirt")
  | _ => false

/-- Lines 130-138: `sp = 1.0; if surface: sp = base_sp ** surface_weight_factor`.
Calling `SURFACE_PENALTIES.get` with a list key raises
`TypeError: unhashable type: 'list'`; that call is reached exactly when the
surface value is truthy, i.e. a non-empty list. -/
noncomputable def surface_factor (surface : TagValue) (params : Params) : Except String ℝ :=
  if surface.truthy then
    match surface with
    | .list _ => .error "TypeError: unhashable type: list"
    | .str s =>
      let base_sp : ℚ := _get_surface_penalty s
      let surface_weight_factor : ℚ := params.surface_weight_factor.getD 1.0
      .ok ((base_sp : ℝ) ^ ((surface_weight_factor : ℝ)))
    | .none => .ok 1
  else .ok 1

/-- Lines 126 and 141-145: the highway multiplier after the
main-road-preference rescaling `avoid + (prefer - avoid) * prefer_main`. -/
def hp_final (highway : TagValue) (p : Params) : ℚ :=
  let hp := highway_penalty_base highway
  let prefer_main := p.prefer_main_roads.getD 0.5
  let avoid_factor : ℚ := 1.5
  let prefer_factor : ℚ := 0.7
  if is_main_highway highway then hp * (avoid_factor + (prefer_factor - avoid_factor) * prefer_main)
  else hp

/-- Lines 148-151: the extra unpaved-preference factor applied to the
surface multiplier for the exact labels gravel/unpaved/dirt. -/
def rough_adjust (surface : TagValue) (p : Params) : ℚ :=
  let prefer_unpaved := p.prefer_unpaved.getD 0.5
  if is_rough_surface surface then 1.0 - 0.5 * (prefer_unpaved - 0.5) else 1.0

/-- Lines 154-157: the heatmap bonus, applied only to cycleways with a
positive heatmap influence. -/
def hb_final (highway : TagValue) (p : Params) : ℚ :=
  let heatmap_influence := p.heatmap_influence.getD 0.0
  if 0 < heatmap_influence ∧ highway = TagValue.str "cycleway" then 1.0 - 0.4 * heatmap_influence
  else 1.0

/-- `_edge_penalty` (routing.py lines 99-165).  Sequential blocks of the
source are the helper functions above; the result is
`length * hp * sp * heatmap_bonus` (line 164).  Exceptions raised by the
dynamic attribute handling are `Except.error`. -/
noncomputable def _edge_penalty (data : EdgeData) (params : Params) : Except String ℝ :=
  let length : ℚ := data.length.getD 1.0
  match normalize_highway data.highway with
  | .error e => .error e
  | .ok highway =>
    match surface_factor data.surface params with
    | .error e => .error e
    | .ok sp0 =>
      let hp : ℚ := hp_final highway params
      let sp : ℝ := sp0 * ((rough_adjust data.surface params : ℚ) : ℝ)
      let heatmap_bonus : ℚ := hb_final highway params
      .ok ((length : ℝ) * ((hp : ℚ) : ℝ) * sp * ((heatmap_bonus : ℚ) : ℝ))

/-- `calculate_edge_weight` (routing.py lines 168-200): the public wrapper
building the edge dict `{'length': length, 'highway': highway,
'surface': surface}` and delegating to `_edge_penalty`. -/
noncomputable def calculate_edge_weight (length : ℚ) (highway : String)
    (surface : Option String) (params : Params) : Except String ℝ :=
  _edge_penalty
    { length := some length
      highway := .str highway
      surface := match surface with
                 | some s => .str s
                 | Option.none => .none }
    params

/-- A latitude/longitude pair, compared exactly as Python compares
coordinate tuples. -/
abbrev Coord := ℚ × ℚ

/-- Coordinate extraction of `compute_route` (routing.py line 691):
`coords = [(G.nodes[n]['y'], G.nodes[n]['x']) for n in route_nodes]`.
The node sequence comes from the external shortest-path search; the
requested start/end coordinates are NOT consulted here. -/
def compute_route_coords (route_nodes : List Nat) (node_coord : Nat → Coord) : List Coord :=
  route_nodes.map node_coord

/-- Endpoint insertion of `compute_route_intersections`
(routing.py lines 606-610): prepend the requested start when the first
coordinate differs, then append the requested end when the last
coordinate differs, both only when the list is non-empty. -/
def ensure_start_end (start_pt end_pt : Coord) (coords : List Coord) : List Coord :=
  let coords1 := if coords ≠ [] ∧ coords.head? ≠ some start_pt then start_pt :: coords else coords
  if coords1 ≠ [] ∧ coords1.getLast? ≠ some end_pt then coords1 ++ [end_pt] else coords1

/-- The detailed RoadGraph data used during path reconstruction:
node coordinates (`coords_map`, line 550) and, per ordered node pair, the
result of `G.get_edge_data(u, v) or G.get_edge_data(v, u)` followed by
`data.get('geometry')` — `Option.none` when no edge data exists,
`some Option.none` when the edge has no geometry, `some (some pts)` when a
polyline (already converted to (lat, lon)) is present. -/
structure DetailGraph where
  node_coord : Nat → Coord
  edge_geom : Nat → Nat → Option (Option (List Coord))

/-- Node-coordinate fallback of the reconstruction loop (lines 571-577,
590-602): append `cu` unless it equals the current last coordinate,
then append `cv` unconditionally. -/
def append_node_coords (coords : List Coord) (cu cv : Coord) : List Coord :=
  let coords1 := if coords = [] ∨ coords.getLast? ≠ some cu then coords ++ [cu] else coords
  coords1 ++ [cv]

/-- One edge of a reconstructed segment (lines 566-602): use the edge
polyline when present — splicing off a duplicated shared endpoint — and
fall back to the two endpoint coordinates otherwise.  An empty polyline
makes `pts[0]` raise inside the `try`, which is caught and also falls
back to endpoint coordinates, except when `coords` is still empty, in
which case the short-circuit `coords and ...` just extends by nothing. -/
def process_edge (G : DetailGraph) (coords : List Coord) (u v : Nat) : List Coord :=
  let cu := G.node_coord u
  let cv := G.node_coord v
  match G.edge_geom u v with
  | Option.none => append_node_coords coords cu cv
  | some Option.none => append_node_coords coords cu cv
  | some (some pts) =>
    match pts with
    | [] => if coords = [] then coords else append_node_coords coords cu cv
    | p :: rest =>
      if coords ≠ [] ∧ coords.getLast? = some p then coords ++ rest
      else coords ++ (p :: rest)

/-- Consecutive pairs of a node sequence: the index pattern
`for i in range(len(xs) - 1): (xs[i], xs[i+1])`. -/
def consecutive_pairs : List Nat → List (Nat × Nat)
  | [] => []
  | [_] => []
  | a :: b :: rest => (a, b) :: consecutive_pairs (b :: rest)

/-- The inner loop of the reconstruction (lines 566-602): convert one
reconstructed node sequence to coordinates, edge by edge. -/
def process_segment (G : DetailGraph) (coords : List Coord) (seg_nodes : List Nat) : List Coord :=
  (consecutive_pairs seg_nodes).foldl (fun acc uv => process_edge G acc uv.1 uv.2) coords

/-- The outer reconstruction loop (lines 552-602).  `solve a b` is the
external `nx.shortest_path(G, a, b, weight='weight')` with its
`weight='length'` retry, `Option.none` when both raise.  A failed pair is
skipped (`continue`, line 563) and contributes nothing. -/
def reconstruct_coords (G : DetailGraph) (solve : Nat → Nat → Option (List Nat))
    (path : List Nat) : List Coord :=
  (consecutive_pairs path).foldl
    (fun acc ab =>
      match solve ab.1 ab.2 with
      | Option.none => acc
      | some seg_nodes => process_segment G acc seg_nodes)
    []

/-- The simplified intersection graph; only the node list matters here,
`len(H) == 0` is emptiness of that list. -/
structure IGraph where
  nodes : List Nat

/-- The `try/except` wrapper of `simplify_graph_to_intersections`
(routing.py lines 290 and 423-426): a body that raises is caught and an
empty graph is returned so the caller can fall back. -/
def simplify_graph_to_intersections_wrapped (body : Except String IGraph) : IGraph :=
  match body with
  | .ok H => H
  | .error _ => { nodes := [] }

/-- The outcome of `compute_route_intersections`: either its own
reconstructed coordinate list, or delegation of the whole request to the
plain strategy `compute_route(start, end, params, radius_meters=...)`. -/
inductive RouteResult where
  | viaIntersections (coords : List Coord)
  | fallbackPlain
deriving DecidableEq

/-- Decision structure of `compute_route_intersections`
(routing.py lines 478-480, 532-540, 545-610): fall back to the plain
strategy when the simplified graph is empty or the A* search fails;
otherwise reconstruct each A*-edge on the detailed graph and insert the
requested endpoints.  The externally computed pieces (fetched graph,
A* result, per-pair shortest paths) are parameters. -/
def compute_route_intersections_result (H : IGraph) (astar_path : Option (List Nat))
    (G : DetailGraph) (solve : Nat → Nat → Option (List Nat))
    (start_pt end_pt : Coord) : RouteResult :=
  if H.nodes.length = 0 then .fallbackPlain
  else
    match astar_path with
    | Option.none => .fallbackPlain
    | some path =>
      .viaIntersections (ensure_start_end start_pt end_pt (reconstruct_coords G solve path))

/-- One step of `stitch_coords` (run_poc_segmented.py lines 50-57): an
empty segment is skipped; otherwise the leading run of points equal to
`stitched[-1]` is dropped and the rest appended.  `stitched[-1]` raises
IndexError when the accumulated list is empty. -/
def stitch_step (stitched seg : List Coord) : Except String (List Coord) :=
  if seg = [] then .ok stitched
  else
    match stitched.getLast? with
    | Option.none => .error "IndexError: list index out of range"
    | some last => .ok (stitched ++ seg.dropWhile (fun p => p = last))

/-- `stitch_coords` (run_poc_segmented.py lines 46-58). -/
def stitch_coords (all_coords : List (List Coord)) : Except String (List Coord) :=
  match all_coords with
  | [] => .ok []
  | first :: rest => rest.foldlM stitch_step first

/-- Restatement of claim C10's description of `stitch_coords`, written
from the claim text: the first segment verbatim, then every subsequent
non-empty segment after dropping its maximal leading run of points equal
to the current last stitched point. -/
def stitch_description (segs : List (List Coord)) : List Coord :=
  match segs with
  | [] => []
  | first :: rest =>
    rest.foldl
      (fun stitched seg =>
        if seg = [] then stitched
        else stitched ++ seg.dropWhile (fun p => stitched.getLast? = some p))
      first

/-! Helper lemmas about the cost model. -/

lemma SURFACE_PENALTIES_ge_one {s : String} {q : ℚ} (h : SURFACE_PENALTIES s = some q) :
    1 ≤ q := by
  unfold SURFACE_PENALTIES at h
  repeat' split at h
  all_goals simp_all
  all_goals norm_num [← h]

lemma one_le_get_surface_penalty (s : String) : 1 ≤ _get_surface_penalty s := by
  unfold _get_surface_penalty
  split
  · next q hq => exact SURFACE_PENALTIES_ge_one hq
  · split
    · split
      · next q hq => exact SURFACE_PENALTIES_ge_one hq
      · norm_num
    · norm_num

lemma get_surface_penalty_pos (s : String) : 0 < _get_surface_penalty s :=
  lt_of_lt_of_le one_pos (one_le_get_surface_penalty s)

lemma highway_penalty_base_pos (v : TagValue) : 0 < highway_penalty_base v := by
  cases v with
  | str s =>
    unfold highway_penalty_base HIGHWAY_PENALTIES
    repeat' split
    all_goals norm_num
  | none => norm_num [highway_penalty_base]
  | list l => norm_num [highway_penalty_base]

lemma hp_final_pos (v : TagValue) (p : Params)
    (h0 : 0 ≤ p.prefer_main_roads.getD 0.5) (h1 : p.prefer_main_roads.getD 0.5 ≤ 1) :
    0 < hp_final v p := by
  unfold hp_final
  split
  · exact mul_pos (highway_penalty_base_pos v) (by linarith)
  · exact highway_penalty_base_pos v

lemma rough_adjust_pos (v : TagValue) (p : Params)
    (h0 : 0 ≤ p.prefer_unpaved.getD 0.5) (h1 : p.prefer_unpaved.getD 0.5 ≤ 1) :
    0 < rough_adjust v p := by
  unfold rough_adjust
  split
  · linarith
  · norm_num

lemma hb_final_pos (v : TagValue) (p : Params)
    (h1 : p.heatmap_influence.getD 0.0 ≤ 1) :
    0 < hb_final v p := by
  simp only [hb_final]
  split
  · linarith
  · norm_num

lemma surface_factor_str (p : Params) {s : String} (hs : s ≠ "") :
    surface_factor (.str s) p =
      .ok (((_get_surface_penalty s : ℚ) : ℝ) ^ ((p.surface_weight_factor.getD 1.0 : ℚ) : ℝ)) := by
  simp [surface_factor, TagValue.truthy, hs]

lemma surface_factor_none (p : Params) : surface_factor .none p = .ok 1 := rfl

lemma surface_factor_empty (p : Params) : surface_factor (.str "") p = .ok 1 := by
  simp [surface_factor, TagValue.truthy]

lemma calculate_edge_weight_str (L : ℚ) (hw : String) {s : String} (p : Params) (hs : s ≠ "") :
    calculate_edge_weight L hw (some s) p =
      .ok ((L : ℝ) * ((hp_final (.str hw) p : ℚ) : ℝ) *
        (((_get_surface_penalty s : ℚ) : ℝ) ^ ((p.surface_weight_factor.getD 1.0 : ℚ) : ℝ) *
          ((rough_adjust (.str s) p : ℚ) : ℝ)) *
        ((hb_final (.str hw) p : ℚ) : ℝ)) := by
  unfold calculate_edge_weight _edge_penalty
  rw [show normalize_highway (.str hw) = .ok (.str hw) from rfl]
  rw [surface_factor_str p hs]
  rfl

lemma calculate_edge_weight_none (L : ℚ) (hw : String) (p : Params) :
    calculate_edge_weight L hw Option.none p =
      .ok ((L : ℝ) * ((hp_final (.str hw) p : ℚ) : ℝ) * (1 * ((1 : ℚ) : ℝ)) *
        ((hb_final (.str hw) p : ℚ) : ℝ)) := by
  unfold calculate_edge_weight _edge_penalty
  rw [show normalize_highway (.str hw) = .ok (.str hw) from rfl]
  rw [show surface_factor TagValue.none p = .ok 1 from rfl]
  rw [show rough_adjust TagValue.none p = 1 by norm_num [rough_adjust, is_rough_surface]]
  rfl

lemma calculate_edge_weight_empty (L : ℚ) (hw : String) (p : Params) :
    calculate_edge_weight L hw (some "") p =
      .ok ((L : ℝ) * ((hp_final (.str hw) p : ℚ) : ℝ) * (1 * ((1 : ℚ) : ℝ)) *
        ((hb_final (.str hw) p : ℚ) : ℝ)) := by
  unfold calculate_edge_weight _edge_penalty
  rw [show normalize_highway (.str hw) = .ok (.str hw) from rfl]
  rw [surface_factor_empty p]
  rw [show rough_adjust (.str "") p = 1 by
    rw [rough_adjust]
    simp [show is_rough_surface (TagValue.str "") = false from by decide]
    norm_num]
  rfl

/-- All-defaults `params` dict: every preference key missing. -/
def defaultParams : Params := {}

lemma defaultParams_valid : Params.valid defaultParams := by
  norm_num [Params.valid, defaultParams]

/-! ## Claim C1 — edge weight positivity -/

/-- C1 (counterexample): the claim ranges over every length ≥ 0, but at
length = 0 — valid per the data model — the computed weight is 0, which is
not strictly positive. -/
theorem zero_length_edge_weight_is_zero :
    Params.valid defaultParams ∧
    calculate_edge_weight 0 "residential" Option.none defaultParams = .ok 0 ∧
    ¬ (0 : ℝ) < 0 := by
  refine ⟨defaultParams_valid, ?_, lt_irrefl 0⟩
  rw [calculate_edge_weight_none]
  norm_num

/-- C1 (amended): for every strictly positive length, any highway class,
any or no surface string, and preferences in the documented ranges,
`calculate_edge_weight` returns a weight (no exception) and that weight is
strictly positive; as an exact real it is finite and not NaN. -/
theorem edge_weight_pos (L : ℚ) (hw : String) (s : Option String) (p : Params)
    (hL : 0 < L) (hp : p.valid) :
    ∃ w : ℝ, calculate_edge_weight L hw s p = .ok w ∧ 0 < w := by
  obtain ⟨h1, h2, h3, h4, h5, h6, _, _, _, _⟩ := hp
  have hpf : (0:ℝ) < ((hp_final (.str hw) p : ℚ) : ℝ) := by
    exact_mod_cast hp_final_pos _ p h1 h2
  have hhb : (0:ℝ) < ((hb_final (.str hw) p : ℚ) : ℝ) := by
    exact_mod_cast hb_final_pos _ p h6
  have hLr : (0:ℝ) < (L : ℝ) := by exact_mod_cast hL
  have hone : (1:ℝ) * ((1 : ℚ) : ℝ) = 1 := by norm_num
  match s with
  | Option.none =>
    refine ⟨_, calculate_edge_weight_none L hw p, ?_⟩
    rw [hone, mul_one]
    exact mul_pos (mul_pos hLr hpf) hhb
  | some s =>
    by_cases hs : s = ""
    · subst hs
      refine ⟨_, calculate_edge_weight_empty L hw p, ?_⟩
      rw [hone, mul_one]
      exact mul_pos (mul_pos hLr hpf) hhb
    · refine ⟨_, calculate_edge_weight_str L hw p hs, ?_⟩
      have hsp : (0:ℝ) < ((_get_surface_penalty s : ℚ) : ℝ) ^
          ((p.surface_weight_factor.getD 1.0 : ℚ) : ℝ) :=
        Real.rpow_pos_of_pos (by exact_mod_cast get_surface_penalty_pos s) _
      have hra : (0:ℝ) < ((rough_adjust (.str s) p : ℚ) : ℝ) := by
        exact_mod_cast rough_adjust_pos _ p h3 h4
      exact mul_pos (mul_pos (mul_pos hLr hpf) (mul_pos hsp hra)) hhb

/-- C1 (witness): the amended theorem at a concrete input. -/
theorem edge_weight_pos_witness :
    ∃ w : ℝ, calculate_edge_weight 100 "residential" (some "asphalt") defaultParams = .ok w ∧
      0 < w :=
  edge_weight_pos 100 "residential" (some "asphalt") defaultParams (by norm_num) defaultParams_valid

/-! ## Claim C4 — compound surface labels -/

/-- Preferences for the C4 counterexample: exponent 1, full unpaved
preference. -/
def paramsC4 : Params := { surface_weight_factor := some 1.0, prefer_unpaved := some 1.0 }

/-- C4 (counterexample): with prefer_unpaved = 1.0 (in [0,1]) the weight
for "gravel:compacted" is 160 while the weight for "gravel" is 120: the
unpaved-preference adjustment tests the exact labels only, so the claimed
equality fails. -/
theorem gravel_compacted_weight_differs :
    calculate_edge_weight 100 "residential" (some "gravel:compacted") paramsC4 = .ok 160 ∧
    calculate_edge_weight 100 "residential" (some "gravel") paramsC4 = .ok 120 ∧
    (160 : ℝ) ≠ 120 := by
  have hswf : paramsC4.surface_weight_factor.getD 1.0 = 1 := by norm_num [paramsC4]
  have hgc : _get_surface_penalty "gravel:compacted" = 1.6 := by
    have d1 : SURFACE_PENALTIES "gravel:compacted" = Option.none := by decide
    have d2 : "gravel:compacted".data.contains ':' = true := by decide
    have d3 : beforeColon "gravel:compacted" = "gravel" := by decide
    simp [_get_surface_penalty, d1, d2, d3, SURFACE_PENALTIES]
  have hg : _get_surface_penalty "gravel" = 1.6 := by
    simp [_get_surface_penalty, SURFACE_PENALTIES]
  have hhp : hp_final (.str "residential") paramsC4 = 1 := by
    simp [hp_final, highway_penalty_base, HIGHWAY_PENALTIES,
      show is_main_highway (TagValue.str "residential") = false from by decide]
    norm_num
  have hhb : hb_final (.str "residential") paramsC4 = 1 := by
    norm_num [hb_final, paramsC4]
  have hra1 : rough_adjust (.str "gravel:compacted") paramsC4 = 1 := by
    simp [rough_adjust, show is_rough_surface (TagValue.str "gravel:compacted") = false from by decide]
    norm_num
  have hra2 : rough_adjust (.str "gravel") paramsC4 = 0.75 := by
    simp [rough_adjust, show is_rough_surface (TagValue.str "gravel") = true from by decide]
    norm_num [paramsC4]
  refine ⟨?_, ?_, by norm_num⟩
  · rw [calculate_edge_weight_str 100 "residential" paramsC4 (by decide)]
    rw [hgc, hhp, hhb, hra1, hswf]
    push_cast
    rw [Real.rpow_one]
    norm_num
  · rw [calculate_edge_weight_str 100 "residential" paramsC4 (by decide)]
    rw [hg, hhp, hhb, hra2, hswf]
    push_cast
    rw [Real.rpow_one]
    norm_num

/-- C4 (amended): "asphalt:lanes" always weighs the same as "asphalt";
"gravel:compacted" weighs the same as "gravel" whenever the effective
unpaved preference is the neutral 0.5 — otherwise the extra
unpaved-preference adjustment applies only to the exact label "gravel". -/
theorem compound_surface_weight_equivalence (L : ℚ) (hw : String) (p : Params) :
    calculate_edge_weight L hw (some "asphalt:lanes") p =
      calculate_edge_weight L hw (some "asphalt") p ∧
    (p.prefer_unpaved.getD 0.5 = 0.5 →
      calculate_edge_weight L hw (some "gravel:compacted") p =
        calculate_edge_weight L hw (some "gravel") p) := by
  have hal : _get_surface_penalty "asphalt:lanes" = 1.0 := by
    have d1 : SURFACE_PENALTIES "asphalt:lanes" = Option.none := by decide
    have d2 : "asphalt:lanes".data.contains ':' = true := by decide
    have d3 : beforeColon "asphalt:lanes" = "asphalt" := by decide
    simp [_get_surface_penalty, d1, d2, d3, SURFACE_PENALTIES]
  have ha : _get_surface_penalty "asphalt" = 1.0 := by
    simp [_get_surface_penalty, SURFACE_PENALTIES]
  have hgc : _get_surface_penalty "gravel:compacted" = 1.6 := by
    have d1 : SURFACE_PENALTIES "gravel:compacted" = Option.none := by decide
    have d2 : "gravel:compacted".data.contains ':' = true := by decide
    have d3 : beforeColon "gravel:compacted" = "gravel" := by decide
    simp [_get_surface_penalty, d1, d2, d3, SURFACE_PENALTIES]
  have hg : _get_surface_penalty "gravel" = 1.6 := by
    simp [_get_surface_penalty, SURFACE_PENALTIES]
  constructor
  · rw [calculate_edge_weight_str L hw p (by decide),
      calculate_edge_weight_str L hw p (by decide), hal, ha]
    have e2 : rough_adjust (.str "asphalt:lanes") p = rough_adjust (.str "asphalt") p := by
      simp [rough_adjust,
        show is_rough_surface (TagValue.str "asphalt:lanes") = false from by decide,
        show is_rough_surface (TagValue.str "asphalt") = false from by decide]
    rw [e2]
  · intro hu
    rw [calculate_edge_weight_str L hw p (by decide),
      calculate_edge_weight_str L hw p (by decide), hgc, hg]
    have e2 : rough_adjust (.str "gravel:compacted") p = rough_adjust (.str "gravel") p := by
      simp [rough_adjust,
        show is_rough_surface (TagValue.str "gravel:compacted") = false from by decide,
        show is_rough_surface (TagValue.str "gravel") = true from by decide, hu]
    rw [e2]

/-- C4 (witness): the amended theorem at concrete inputs (default
preferences, whose effective unpaved preference is 0.5). -/
theorem compound_surface_weight_equivalence_witness :
    calculate_edge_weight 100 "residential" (some "asphalt:lanes") defaultParams =
      calculate_edge_weight 100 "residential" (some "asphalt") defaultParams ∧
    calculate_edge_weight 100 "residential" (some "gravel:compacted") defaultParams =
      calculate_edge_weight 100 "residential" (some "gravel") defaultParams :=
  ⟨(compound_surface_weight_equivalence 100 "residential" defaultParams).1,
   (compound_surface_weight_equivalence 100 "residential" defaultParams).2
     (by norm_num [defaultParams])⟩

/-! ## Claim C7 — monotonicity of the rough/paved ratio in the exponent -/

/-- C7: for a rough surface (gravel/unpaved/dirt) versus "asphalt" at equal
length and highway class, the weight ratio is strictly increasing in the
surface-weight exponent. -/
theorem rough_paved_weight_quotient_strictmono
    (L : ℚ) (hw : String) (s : String) (p : Params) (e1 e2 : ℚ)
    (hs : s = "gravel" ∨ s = "unpaved" ∨ s = "dirt")
    (hL : 0 < L) (hval : p.valid)
    (he1 : 0.1 ≤ e1) (h12 : e1 < e2) (he2 : e2 ≤ 3) :
    ∃ wr1 wp1 wr2 wp2 : ℝ,
      calculate_edge_weight L hw (some s) { p with surface_weight_factor := some e1 } = .ok wr1 ∧
      calculate_edge_weight L hw (some "asphalt") { p with surface_weight_factor := some e1 } = .ok wp1 ∧
      calculate_edge_weight L hw (some s) { p with surface_weight_factor := some e2 } = .ok wr2 ∧
      calculate_edge_weight L hw (some "asphalt") { p with surface_weight_factor := some e2 } = .ok wp2 ∧
      0 < wp1 ∧ 0 < wp2 ∧ wr1 / wp1 < wr2 / wp2 := by
  obtain ⟨h1, h2, h3, h4, h5, h6, _, _, _, _⟩ := hval
  have hsne : s ≠ "" := by rcases hs with rfl | rfl | rfl <;> decide
  have hq : (1:ℚ) < _get_surface_penalty s := by
    rcases hs with rfl | rfl | rfl
    all_goals simp [_get_surface_penalty, SURFACE_PENALTIES]
    all_goals norm_num
  have hA : (0:ℝ) < ((hp_final (.str hw) p : ℚ) : ℝ) := by
    exact_mod_cast hp_final_pos _ p h1 h2
  have hB : (0:ℝ) < ((hb_final (.str hw) p : ℚ) : ℝ) := by
    exact_mod_cast hb_final_pos _ p h6
  have hLr : (0:ℝ) < (L : ℝ) := by exact_mod_cast hL
  have hR : (0:ℝ) < ((rough_adjust (.str s) p : ℚ) : ℝ) := by
    exact_mod_cast rough_adjust_pos _ p h3 h4
  have hq' : (1:ℝ) < ((_get_surface_penalty s : ℚ) : ℝ) := by exact_mod_cast hq
  have wpform : ∀ e : ℚ,
      calculate_edge_weight L hw (some "asphalt") { p with surface_weight_factor := some e } =
        .ok ((L : ℝ) * ((hp_final (.str hw) p : ℚ) : ℝ) * ((hb_final (.str hw) p : ℚ) : ℝ)) := by
    intro e
    rw [calculate_edge_weight_str L hw _ (by decide)]
    rw [show _get_surface_penalty "asphalt" = 1.0 from by
      simp [_get_surface_penalty, SURFACE_PENALTIES]]
    rw [show hp_final (.str hw) { p with surface_weight_factor := some e } =
      hp_final (.str hw) p from rfl]
    rw [show hb_final (.str hw) { p with surface_weight_factor := some e } =
      hb_final (.str hw) p from rfl]
    rw [show rough_adjust (.str "asphalt") { p with surface_weight_factor := some e } = 1 from by
      simp [rough_adjust, show is_rough_surface (TagValue.str "asphalt") = false from by decide]
      norm_num]
    congr 1
    push_cast
    rw [show (1.0 : ℝ) = 1 from by norm_num, Real.one_rpow]
    ring
  have wrform : ∀ e : ℚ,
      calculate_edge_weight L hw (some s) { p with surface_weight_factor := some e } =
        .ok ((L : ℝ) * ((hp_final (.str hw) p : ℚ) : ℝ) *
          (((_get_surface_penalty s : ℚ) : ℝ) ^ ((e : ℚ) : ℝ) *
            ((rough_adjust (.str s) p : ℚ) : ℝ)) *
          ((hb_final (.str hw) p : ℚ) : ℝ)) := by
    intro e
    rw [calculate_edge_weight_str L hw _ hsne]
    rfl
  have hC : (0:ℝ) < (L : ℝ) * ((hp_final (.str hw) p : ℚ) : ℝ) * ((hb_final (.str hw) p : ℚ) : ℝ) :=
    mul_pos (mul_pos hLr hA) hB
  refine ⟨_, _, _, _, wrform e1, wpform e1, wrform e2, wpform e2, hC, hC, ?_⟩
  have hL0 : (L : ℝ) ≠ 0 := ne_of_gt hLr
  have hA0 : ((hp_final (.str hw) p : ℚ) : ℝ) ≠ 0 := ne_of_gt hA
  have hB0 : ((hb_final (.str hw) p : ℚ) : ℝ) ≠ 0 := ne_of_gt hB
  have ratio : ∀ x : ℝ,
      ((L : ℝ) * ((hp_final (.str hw) p : ℚ) : ℝ) * (x * ((rough_adjust (.str s) p : ℚ) : ℝ)) *
          ((hb_final (.str hw) p : ℚ) : ℝ)) /
        ((L : ℝ) * ((hp_final (.str hw) p : ℚ) : ℝ) * ((hb_final (.str hw) p : ℚ) : ℝ)) =
        x * ((rough_adjust (.str s) p : ℚ) : ℝ) := by
    intro x
    field_simp
    ring
  rw [ratio, ratio]
  refine mul_lt_mul_of_pos_right ?_ hR
  exact (Real.rpow_lt_rpow_left_iff hq').2 (by exact_mod_cast h12)

/-- C7 (witness): the theorem at concrete inputs (gravel vs asphalt,
exponents 1 and 2). -/
theorem rough_paved_weight_quotient_strictmono_witness :
    ∃ wr1 wp1 wr2 wp2 : ℝ,
      calculate_edge_weight 100 "residential" (some "gravel")
        { defaultParams with surface_weight_factor := some 1 } = .ok wr1 ∧
      calculate_edge_weight 100 "residential" (some "asphalt")
        { defaultParams with surface_weight_factor := some 1 } = .ok wp1 ∧
      calculate_edge_weight 100 "residential" (some "gravel")
        { defaultParams with surface_weight_factor := some 2 } = .ok wr2 ∧
      calculate_edge_weight 100 "residential" (some "asphalt")
        { defaultParams with surface_weight_factor := some 2 } = .ok wp2 ∧
      0 < wp1 ∧ 0 < wp2 ∧ wr1 / wp1 < wr2 / wp2 :=
  rough_paved_weight_quotient_strictmono 100 "residential" "gravel" defaultParams 1 2
    (Or.inl rfl) (by norm_num) defaultParams_valid (by norm_num) (by norm_num) (by norm_num)

/-! ## Claim C9 — the surface multiplier can drop below 1 -/

/-- Preferences for C9: smallest documented exponent, full unpaved
preference. -/
def paramsC9 : Params := { surface_weight_factor := some 0.1, prefer_unpaved := some 1.0 }

/-- C9: for some valid preferences (exponent 0.1, prefer_unpaved 1.0) a
gravel edge weighs strictly less than an asphalt edge of identical length
and class: the combined surface multiplier 1.6^0.1 · 0.75 is below 1. -/
theorem gravel_weight_below_asphalt_weight :
    ∃ p : Params, Params.valid p ∧ ∃ wg wa : ℝ,
      calculate_edge_weight 100 "residential" (some "gravel") p = .ok wg ∧
      calculate_edge_weight 100 "residential" (some "asphalt") p = .ok wa ∧
      wg < wa := by
  refine ⟨paramsC9, by norm_num [Params.valid, paramsC9], _, _,
    calculate_edge_weight_str 100 "residential" paramsC9 (by decide),
    calculate_edge_weight_str 100 "residential" paramsC9 (by decide), ?_⟩
  rw [show _get_surface_penalty "gravel" = 1.6 from by
        simp [_get_surface_penalty, SURFACE_PENALTIES],
      show _get_surface_penalty "asphalt" = 1.0 from by
        simp [_get_surface_penalty, SURFACE_PENALTIES],
      show paramsC9.surface_weight_factor.getD 1.0 = 0.1 from rfl,
      show rough_adjust (.str "gravel") paramsC9 = 0.75 from by
        simp [rough_adjust, paramsC9,
          show is_rough_surface (TagValue.str "gravel") = true from by decide]
        norm_num,
      show rough_adjust (.str "asphalt") paramsC9 = 1 from by
        simp [rough_adjust, show is_rough_surface (TagValue.str "asphalt") = false from by decide]
        norm_num]
  push_cast
  rw [show (1.0 : ℝ) = 1 from by norm_num, Real.one_rpow]
  rw [show (0.1 : ℝ) = (1 : ℝ) / 10 from by norm_num]
  have key : (1.6 : ℝ) ^ ((1 : ℝ) / 10) < 4 / 3 := by
    have h0 : (0:ℝ) ≤ 1.6 := by norm_num
    have hpow : ((1.6 : ℝ) ^ ((1 : ℝ) / 10)) ^ (10 : ℕ) = 1.6 := by
      rw [← Real.rpow_natCast ((1.6 : ℝ) ^ ((1 : ℝ) / 10)) 10, ← Real.rpow_mul h0]
      norm_num
    have hlt : ((1.6 : ℝ) ^ ((1 : ℝ) / 10)) ^ (10 : ℕ) < (4 / 3 : ℝ) ^ (10 : ℕ) := by
      rw [hpow]; norm_num
    exact lt_of_pow_lt_pow_left₀ 10 (by norm_num) hlt
  have hp9 : (0:ℝ) < ((hp_final (TagValue.str "residential") paramsC9 : ℚ) : ℝ) := by
    exact_mod_cast hp_final_pos _ paramsC9 (by norm_num [paramsC9]) (by norm_num [paramsC9])
  have hb9 : (0:ℝ) < ((hb_final (TagValue.str "residential") paramsC9 : ℚ) : ℝ) := by
    exact_mod_cast hb_final_pos _ paramsC9 (by norm_num [paramsC9])
  have hfac : (1.6 : ℝ) ^ ((1 : ℝ) / 10) * 0.75 < 1 * 1 := by nlinarith [key]
  exact mul_lt_mul_of_pos_right
    (mul_lt_mul_of_pos_left hfac (mul_pos (by norm_num) hp9)) hb9

/-! ## Claim C6 — totality of the edge cost model -/

/-- C6 (counterexample): a list-valued surface tag (legal in OSM data and
named by the claim) makes `_edge_penalty` raise `TypeError` — the dict
lookup `SURFACE_PENALTIES.get(surface)` hashes its key — rather than
return a weight. -/
theorem edge_penalty_raises_on_list_surface :
    _edge_penalty
      { length := some 1.0, highway := .str "residential", surface := .list ["asphalt"] }
      defaultParams = .error "TypeError: unhashable type: list" := rfl

/-- C6 (amended): `_edge_penalty` returns a weight for every params dict
and every attribute dict whose highway tag is not the empty list and whose
surface tag is not a list (on a non-empty list surface it raises
TypeError; on an empty-list highway, IndexError); with every attribute
missing, each factor degrades to the neutral 1.0 and the weight is 1. -/
theorem edge_penalty_total_on_scalar_tags (d : EdgeData) (p : Params)
    (hh : d.highway ≠ TagValue.list [])
    (hs : ∀ l, d.surface ≠ TagValue.list l) :
    (∃ w : ℝ, _edge_penalty d p = .ok w) ∧
    _edge_penalty ⟨Option.none, TagValue.none, TagValue.none⟩ p = .ok 1 := by
  constructor
  · have hnh : ∃ hw', normalize_highway d.highway = .ok hw' := by
      cases hcase : d.highway with
      | none => exact ⟨_, rfl⟩
      | str s => exact ⟨_, rfl⟩
      | list l =>
        cases l with
        | nil => exact absurd hcase hh
        | cons a t => exact ⟨_, rfl⟩
    obtain ⟨hw', hok⟩ := hnh
    have hsf : ∃ sp, surface_factor d.surface p = .ok sp := by
      cases hcase : d.surface with
      | none => exact ⟨_, rfl⟩
      | list l => exact absurd hcase (hs l)
      | str s =>
        by_cases hse : s = ""
        · subst hse; exact ⟨_, surface_factor_empty p⟩
        · exact ⟨_, surface_factor_str p hse⟩
    obtain ⟨sp, hsp⟩ := hsf
    refine ⟨((d.length.getD 1.0 : ℚ) : ℝ) * ((hp_final hw' p : ℚ) : ℝ) *
      (sp * ((rough_adjust d.surface p : ℚ) : ℝ)) * ((hb_final hw' p : ℚ) : ℝ), ?_⟩
    unfold _edge_penalty
    rw [hok, hsp]
  · have hpn : hp_final TagValue.none p = 1 := by
      norm_num [hp_final, highway_penalty_base, is_main_highway]
    have hrn : rough_adjust TagValue.none p = 1 := by
      norm_num [rough_adjust, is_rough_surface]
    have hbn : hb_final TagValue.none p = 1 := by
      simp [hb_final]
      norm_num
    simp only [_edge_penalty, normalize_highway, surface_factor, TagValue.truthy,
      Bool.false_eq_true, if_false, hpn, hrn, hbn]
    norm_num

/-- C6 (witness): the amended theorem at a concrete attribute dict. -/
theorem edge_penalty_total_on_scalar_tags_witness :
    (∃ w : ℝ,
      _edge_penalty ⟨some 5, .str "path", .str "gravel"⟩ defaultParams = .ok w) ∧
    _edge_penalty ⟨Option.none, TagValue.none, TagValue.none⟩ defaultParams = .ok 1 :=
  edge_penalty_total_on_scalar_tags ⟨some 5, .str "path", .str "gravel"⟩ defaultParams
    (by decide) (fun l h => by cases h)

/-! ## Claim C2 — requested endpoints on returned routes -/

/-- Node coordinates of the C2 scenario: node n sits at (n, n); the
nearest node to the requested start (0, 0) is node 1 at (1, 1). -/
def exNodeCoord : Nat → Coord :=
  fun n => if n = 1 then (1, 1) else (2, 2)

/-- C2 (counterexample): the plain strategy converts the snapped node
sequence to coordinates with no endpoint insertion, so when the nearest
node differs from the requested start (0, 0) the returned list does not
begin with it. -/
theorem plain_route_starts_at_snapped_node :
    compute_route_coords [1, 2] exNodeCoord = [(1, 1), (2, 2)] ∧
    (compute_route_coords [1, 2] exNodeCoord).head? ≠ some ((0 : ℚ), (0 : ℚ)) := by
  constructor
  · rfl
  · intro hcontra
    simp [compute_route_coords, exNodeCoord, Prod.ext_iff] at hcontra

/-- C2 (amended): the heuristic strategy's endpoint insertion guarantees
that a non-empty reconstructed list begins with the requested start and
ends with the requested end; the plain strategy performs no such
insertion (see the counterexample). -/
theorem intersections_route_has_requested_endpoints (s e : Coord) (coords : List Coord)
    (h : coords ≠ []) :
    (ensure_start_end s e coords).head? = some s ∧
    (ensure_start_end s e coords).getLast? = some e := by
  obtain ⟨a, t, rfl⟩ := List.exists_cons_of_ne_nil h
  unfold ensure_start_end
  by_cases h1 : a = s
  · subst h1
    have hc1 : (if a :: t ≠ [] ∧ (a :: t).head? ≠ some a then a :: a :: t else a :: t) =
        a :: t := by
      simp
    rw [hc1]
    by_cases h2 : (a :: t).getLast? = some e
    · simp [h2]
    · rw [if_pos ⟨by simp, h2⟩]
      refine ⟨by simp, ?_⟩
      rw [show (a :: t) ++ [e] = [] ++ (a :: t) ++ e :: [] from by simp]
      rw [List.getLast?_append_cons]
      rfl
  · have hc1 : (if a :: t ≠ [] ∧ (a :: t).head? ≠ some s then s :: a :: t else a :: t) =
        s :: a :: t := by
      simp [h1]
    rw [hc1]
    by_cases h2 : (s :: a :: t).getLast? = some e
    · simp [h2]
    · rw [if_pos ⟨by simp, h2⟩]
      refine ⟨by simp, ?_⟩
      rw [show (s :: a :: t) ++ [e] = [] ++ (s :: a :: t) ++ e :: [] from by simp]
      rw [List.getLast?_append_cons]
      rfl

/-- C2 (witness): the amended theorem at a concrete snapped segment. -/
theorem intersections_route_has_requested_endpoints_witness :
    (ensure_start_end ((0 : ℚ), (0 : ℚ)) (5, 5) [(1, 1)]).head? = some ((0 : ℚ), (0 : ℚ)) ∧
    (ensure_start_end ((0 : ℚ), (0 : ℚ)) (5, 5) [(1, 1)]).getLast? = some ((5 : ℚ), (5 : ℚ)) :=
  intersections_route_has_requested_endpoints ((0 : ℚ), (0 : ℚ)) (5, 5) [(1, 1)] (by simp)

/-! ## Claim C3 — failed per-edge reconstruction -/

/-- Detailed graph of the C3 scenario: node n at (n, n), every node pair
connected by an edge without polyline geometry. -/
def exDetailGraph : DetailGraph where
  node_coord := fun n => if n = 0 then (0, 0) else if n = 1 then (1, 1) else (2, 2)
  edge_geom := fun _ _ => some Option.none

/-- Per-pair shortest-path oracle of the C3 scenario: reconstruction of
the simplified edge 0→1 fails, every other pair succeeds directly. -/
def exSolve : Nat → Nat → Option (List Nat) :=
  fun a b => if a = 0 ∧ b = 1 then Option.none else some [a, b]

/-- C3 (counterexample): with the A* result 0→1→2 and the reconstruction
of edge 0→1 failing, `compute_route_intersections` does not fall back to
the plain strategy: it returns a coordinate list that simply omits the
failed segment. -/
theorem failed_reconstruction_does_not_fall_back :
    exSolve 0 1 = Option.none ∧
    compute_route_intersections_result ⟨[0, 1, 2]⟩ (some [0, 1, 2]) exDetailGraph exSolve
      (0, 0) (2, 2) = .viaIntersections [(0, 0), (1, 1), (2, 2)] ∧
    compute_route_intersections_result ⟨[0, 1, 2]⟩ (some [0, 1, 2]) exDetailGraph exSolve
      (0, 0) (2, 2) ≠ .fallbackPlain := by
  refine ⟨rfl, ?_, ?_⟩
  · rfl
  · intro hcontra
    rw [show compute_route_intersections_result ⟨[0, 1, 2]⟩ (some [0, 1, 2]) exDetailGraph
        exSolve (0, 0) (2, 2) = .viaIntersections [(0, 0), (1, 1), (2, 2)] from rfl] at hcontra
    exact RouteResult.noConfusion hcontra

/-- C3 (amended): a consecutive pair of the A* path whose re-expansion on
the detailed graph fails is skipped — it contributes nothing to the
reconstructed coordinates and the remaining pairs are still processed;
no fallback to the plain strategy happens at this stage. -/
theorem failed_segment_is_skipped (G : DetailGraph) (solve : Nat → Nat → Option (List Nat))
    (a b : Nat) (rest : List Nat) (h : solve a b = Option.none) :
    reconstruct_coords G solve (a :: b :: rest) = reconstruct_coords G solve (b :: rest) := by
  simp [reconstruct_coords, consecutive_pairs, h]

/-- C3 (witness): the amended theorem on the concrete failing oracle. -/
theorem failed_segment_is_skipped_witness :
    reconstruct_coords exDetailGraph exSolve [0, 1, 2] =
      reconstruct_coords exDetailGraph exSolve [1, 2] :=
  failed_segment_is_skipped exDetailGraph exSolve 0 1 [2] rfl

/-! ## Claim C8 — anomaly during simplification, empty graph fallback -/

/-- C8: a structural anomaly (an exception in the simplifier body) is
caught and yields an empty `IntersectionGraph`, and on an empty graph
`compute_route_intersections` delegates the whole request to the plain
strategy — `RouteResult.fallbackPlain` stands for
`compute_route(start, end, params, radius_meters=...)` — without
raising. -/
theorem simplifier_anomaly_causes_plain_fallback (err : String)
    (astar_path : Option (List Nat)) (G : DetailGraph)
    (solve : Nat → Nat → Option (List Nat)) (s e : Coord) :
    (simplify_graph_to_intersections_wrapped (.error err)).nodes = [] ∧
    compute_route_intersections_result (simplify_graph_to_intersections_wrapped (.error err))
      astar_path G solve s e = .fallbackPlain :=
  ⟨rfl, rfl⟩

/-! Helper lemmas about `List.dropWhile`. -/

lemma head_of_dropWhile_false {α : Type _} (p : α → Bool) (l : List α) :
    ∀ y ∈ (l.dropWhile p).head?, p y = false := by
  induction l with
  | nil => simp
  | cons a t ih =>
    cases hpa : p a with
    | true =>
      rw [List.dropWhile_cons, hpa]
      simpa using ih
    | false =>
      rw [List.dropWhile_cons, hpa]
      intro y hy
      simp only [Bool.false_eq_true, if_false, List.head?_cons, Option.mem_def,
        Option.some.injEq] at hy
      subst hy
      exact hpa

lemma dropWhile_congr_on {α : Type _} {p q : α → Bool} :
    ∀ {l : List α}, (∀ a ∈ l, p a = q a) → l.dropWhile p = l.dropWhile q := by
  intro l
  induction l with
  | nil => intro _; rfl
  | cons a t ih =>
    intro h
    rw [List.dropWhile_cons, List.dropWhile_cons, h a (by simp)]
    split
    · exact ih fun b hb => h b (by simp [hb])
    · rfl

/-! ## Claim C5 — no consecutive duplicates in the stitched path -/

/-- Degenerate node coordinates for the C5 counterexample: two distinct
graph nodes at the identical coordinate (0, 0), permitted by the data
model. -/
def dupNodeCoord : Nat → Coord := fun _ => (0, 0)

/-- C5 (counterexample): the searches can emit consecutive duplicate
coordinates (the plain strategy maps the snapped node sequence through
node coordinates, and distinct adjacent nodes may share a coordinate);
`stitch_coords` copies the first segment verbatim, so the stitched path
then contains two identical consecutive coordinates. -/
theorem stitched_path_with_consecutive_duplicate :
    compute_route_coords [1, 2] dupNodeCoord = [(0, 0), (0, 0)] ∧
    stitch_coords [[(0, 0), (0, 0)]] = .ok [(0, 0), (0, 0)] ∧
    ¬ List.Chain' (fun a b => a ≠ b) ([((0 : ℚ), (0 : ℚ)), (0, 0)]) := by
  refine ⟨rfl, rfl, ?_⟩
  simp [List.chain'_cons]

/-- C5 (amended): provided every per-segment list is non-empty and itself
free of consecutive duplicates — which the searches do not guarantee in
general, see the counterexample — the stitched path is free of
consecutive duplicates: boundary duplicates are dropped and no new ones
are introduced. -/
theorem stitched_path_no_consecutive_duplicates (segs : List (List Coord))
    (h : ∀ seg ∈ segs, seg ≠ [] ∧ List.Chain' (fun a b => a ≠ b) seg) :
    ∃ out, stitch_coords segs = .ok out ∧ List.Chain' (fun a b => a ≠ b) out := by
  match segs with
  | [] => exact ⟨[], rfl, List.chain'_nil⟩
  | first :: rest =>
    have h0 := h first (by simp)
    have main : ∀ (rest' : List (List Coord)), (∀ seg ∈ rest', seg ≠ [] ∧
          List.Chain' (fun a b => a ≠ b) seg) →
        ∀ (acc : List Coord), acc ≠ [] → List.Chain' (fun a b => a ≠ b) acc →
        ∃ out, rest'.foldlM stitch_step acc = .ok out ∧ out ≠ [] ∧
          List.Chain' (fun a b => a ≠ b) out := by
      intro rest'
      induction rest' with
      | nil => exact fun _ acc h1 h2 => ⟨acc, rfl, h1, h2⟩
      | cons seg rest'' ih =>
        intro hsegs acc h1 h2
        obtain ⟨hne, hch⟩ := hsegs seg (by simp)
        obtain ⟨lastv, hlast⟩ : ∃ v, acc.getLast? = some v := by
          cases hl : acc.getLast? with
          | none => exact absurd (List.getLast?_eq_none_iff.mp hl) h1
          | some v => exact ⟨v, rfl⟩
        have hstep : stitch_step acc seg = .ok (acc ++ seg.dropWhile (fun x => x = lastv)) := by
          unfold stitch_step
          rw [if_neg hne, hlast]
        have hacc' : acc ++ seg.dropWhile (fun x => x = lastv) ≠ [] := by
          simp [h1]
        have hch' : List.Chain' (fun a b => a ≠ b)
            (acc ++ seg.dropWhile (fun x => x = lastv)) := by
          refine List.Chain'.append h2 (hch.suffix (List.dropWhile_suffix _)) ?_
          intro x hx y hy
          rw [hlast, Option.mem_def, Option.some.injEq] at hx
          subst hx
          have := head_of_dropWhile_false (fun x => decide (x = lastv)) seg y hy
          intro hxy
          rw [← hxy] at this
          simp at this
        rw [List.foldlM_cons, hstep]
        exact ih (fun s hs => hsegs s (by simp [hs])) _ hacc' hch'
    obtain ⟨out, hfold, _, hout⟩ :=
      main rest (fun s hs => h s (by simp [hs])) first h0.1 h0.2
    exact ⟨out, hfold, hout⟩

/-- C5 (witness): the amended theorem on two concrete duplicate-free
segments sharing a boundary point. -/
theorem stitched_path_no_consecutive_duplicates_witness :
    ∃ out, stitch_coords [[((0 : ℚ), (0 : ℚ)), (1, 1)], [(1, 1), (2, 2)]] = .ok out ∧
      List.Chain' (fun a b => a ≠ b) out :=
  stitched_path_no_consecutive_duplicates [[((0 : ℚ), (0 : ℚ)), (1, 1)], [(1, 1), (2, 2)]]
    (by
      intro seg hseg
      simp only [List.mem_cons, List.not_mem_nil, or_false] at hseg
      rcases hseg with rfl | rfl
      · refine ⟨by simp, ?_⟩
        simp [List.chain'_cons, Prod.ext_iff]
      · refine ⟨by simp, ?_⟩
        simp [List.chain'_cons, Prod.ext_iff])

/-! ## Claim C10 — stitch_coords as order- and content-preserving -/

/-- C10 (counterexample): on an input whose first segment is empty and a
later segment is non-empty, `stitch_coords` raises IndexError
(`stitched[-1]` on an empty list) instead of producing the described
output. -/
theorem stitch_raises_on_empty_first_segment :
    stitch_coords [[], [((0 : ℚ), (0 : ℚ))]] =
      .error "IndexError: list index out of range" := rfl

/-- C10 (amended): except when the first segment is empty while a later
segment is non-empty (where IndexError is raised), `stitch_coords`
returns exactly the claim's description: the empty input yields [],
otherwise the first segment verbatim followed by each subsequent
non-empty segment with only its maximal leading run of points equal to
the current last stitched point dropped. -/
theorem stitch_coords_matches_description (segs : List (List Coord))
    (h : segs.head? ≠ some [] ∨ ∀ seg ∈ segs.tail, seg = []) :
    stitch_coords segs = .ok (stitch_description segs) := by
  match segs with
  | [] => rfl
  | first :: rest =>
    show rest.foldlM stitch_step first = .ok (rest.foldl
      (fun stitched seg =>
        if seg = [] then stitched
        else stitched ++ seg.dropWhile (fun p => stitched.getLast? = some p)) first)
    rcases h with h | h
    · have hf : first ≠ [] := by simpa using h
      have main : ∀ (rest' : List (List Coord)) (acc : List Coord), acc ≠ [] →
          rest'.foldlM stitch_step acc = .ok (rest'.foldl
            (fun stitched seg =>
              if seg = [] then stitched
              else stitched ++ seg.dropWhile (fun p => stitched.getLast? = some p)) acc) := by
        intro rest'
        induction rest' with
        | nil => intro acc _; rfl
        | cons seg rest'' ih =>
          intro acc h1
          rw [List.foldlM_cons, List.foldl_cons]
          by_cases hseg : seg = []
          · rw [show stitch_step acc seg = .ok acc from by rw [stitch_step, if_pos hseg]]
            rw [if_pos hseg]
            exact ih acc h1
          · obtain ⟨lastv, hlast⟩ : ∃ v, acc.getLast? = some v := by
              cases hl : acc.getLast? with
              | none => exact absurd (List.getLast?_eq_none_iff.mp hl) h1
              | some v => exact ⟨v, rfl⟩
            rw [show stitch_step acc seg =
                .ok (acc ++ seg.dropWhile (fun x => x = lastv)) from by
              rw [stitch_step]; rw [if_neg hseg, hlast]]
            rw [if_neg hseg]
            rw [show seg.dropWhile (fun p => acc.getLast? = some p) =
                seg.dropWhile (fun x => x = lastv) from
              dropWhile_congr_on (fun b _ => by simp [hlast, eq_comm])]
            exact ih _ (by simp [h1])
      exact main rest first hf
    · have main2 : ∀ (rest' : List (List Coord)) (acc : List Coord),
          (∀ seg ∈ rest', seg = []) →
          rest'.foldlM stitch_step acc = .ok (rest'.foldl
            (fun stitched seg =>
              if seg = [] then stitched
              else stitched ++ seg.dropWhile (fun p => stitched.getLast? = some p)) acc) := by
        intro rest'
        induction rest' with
        | nil => intro acc _; rfl
        | cons seg rest'' ih =>
          intro acc hall
          have hseg : seg = [] := hall seg (by simp)
          rw [List.foldlM_cons, List.foldl_cons]
          rw [show stitch_step acc seg = .ok acc from by rw [stitch_step, if_pos hseg]]
          rw [if_pos hseg]
          exact ih acc (fun s hs => hall s (by simp [hs]))
      exact main2 rest first (by simpa using h)

/-- C10 (witness): the amended theorem on concrete segments, evaluated to
the expected stitched list. -/
theorem stitch_coords_matches_description_witness :
    stitch_coords [[((0 : ℚ), (0 : ℚ))], [(0, 0), (1, 1)]] =
      .ok (stitch_description [[((0 : ℚ), (0 : ℚ))], [(0, 0), (1, 1)]]) :=
  stitch_coords_matches_description [[((0 : ℚ), (0 : ℚ))], [(0, 0), (1, 1)]]
    (Or.inl (by simp))

end Jadlo
